import Mathlib

/-!
# Verification of the masking / secure-monitoring core

Shallow embedding of `src/scripts/masking_service.py` and
`src/scripts/monitoring.py`.

Conventions of the embedding:
* Python strings are Lean `String` (lists of characters); `str.lower` /
  `re.IGNORECASE` are modelled with `Char.toLower` (ASCII case folding).
* Python's `dict` (insertion-ordered) is an association list.
* `re.compile('|'.join(re.escape(t) for t in sorted_terms), re.IGNORECASE)`
  followed by `.sub` is modelled as a left-to-right scan that, at each
  position, tries the (escaped, hence literal) alternatives in list order
  and replaces the first one that matches, then resumes after the match —
  exactly the semantics of an ordered literal alternation under `re.sub`.
* Python values flowing through `mask_structure` are a `Value` tree:
  mappings, sequences, strings, numbers, booleans, `None`, and opaque
  (non-JSON-serializable) objects.
-/

/-- Character-wise ASCII lowercasing: model of `str.lower()` /
`re.IGNORECASE` comparison for the ASCII texts the engine handles. -/
def lowerCs (s : List Char) : List Char := s.map Char.toLower

/-- `t` is a prefix of `s` (exact character comparison). -/
def isPfx : List Char → List Char → Bool
  | [], _ => true
  | _ :: _, [] => false
  | a :: ts, b :: ss => a == b && isPfx ts ss

/-- `t` occurs as a contiguous substring of `s` (model of Python's
`t in s` on strings, exact comparison). -/
def isSub (t : List Char) : List Char → Bool
  | [] => isPfx t []
  | c :: ss => isPfx t (c :: ss) || isSub t ss

/-- Stable insertion of a string into a list kept in descending order of
length: the inserted element goes before the first strictly shorter one. -/
def insertByLen (x : String) : List String → List String
  | [] => [x]
  | y :: ys => if x.length ≤ y.length then y :: insertByLen x ys else x :: y :: ys

/-- Model of `sorted(self.sensitive_terms, key=len, reverse=True)`:
a stable sort by descending length (ties keep their original order,
as Python's stable `sorted` does). -/
def sortByLenDesc : List String → List String
  | [] => []
  | x :: xs => insertByLen x (sortByLenDesc xs)

/-- The in-memory `MaskingService` after `__init__` has read the
configuration: `sensitive_keys` (a set of strings, modelled as a list
with exact-equality membership), `sensitive_terms` (ordered list), and
`token_map` (insertion-ordered dict). -/
structure MaskingService where
  sensitive_keys : List String
  sensitive_terms : List String
  token_map : List (String × String)
deriving DecidableEq

/-- The term list the compiled pattern alternates over:
`sorted(self.sensitive_terms, key=len, reverse=True)`. -/
def MaskingService.sortedTerms (m : MaskingService) : List String :=
  sortByLenDesc m.sensitive_terms

/-- The inner loop of `replace_match`: the first entry of `token_map`
(in iteration order) whose key is a case-insensitive substring of the
matched text (`term.lower() in original.lower()`). -/
def findToken (token_map : List (String × String)) (original : List Char) :
    Option (String × String) :=
  token_map.find? fun p => isSub (lowerCs p.1.data) (lowerCs original)

/-- Model of the `replace_match` closure in `MaskingService.mask_text`:
given the matched text, return `f"[{token}]"` for the first qualifying
`token_map` entry, else the fallback `"[MASKED_TERM]"`. -/
def replace_match (token_map : List (String × String)) (original : List Char) :
    List Char :=
  match findToken token_map original with
  | some p => ("[" ++ p.2 ++ "]").data
  | none => "[MASKED_TERM]".data

/-- At the current scan position, the alternative the pattern matches:
the first term in `terms` (pattern order) that is a case-insensitive
prefix of the remaining text. -/
def findTerm (terms : List String) (s : List Char) : Option String :=
  terms.find? fun t => isPfx (lowerCs t.data) (lowerCs s)

/-- The scan loop of `self.pattern.sub(replace_match, text)`: at each
position try the alternatives in pattern order; on a match, emit
`rep` applied to the matched span of the text and resume after it
(a zero-width match, possible only for an empty configured term, emits
the replacement and then copies one character, as `re.sub` does).
`fuel` is a structural-termination bound: every step consumes at least
one character, so with `fuel ≥ s.length` the `0` arm is unreachable. -/
def maskFuel (terms : List String) (rep : List Char → List Char) :
    Nat → List Char → List Char
  | _, [] =>
    match findTerm terms [] with
    | some t => rep (([] : List Char).take t.length)
    | none => []
  | 0, s => s
  | fuel + 1, c :: cs =>
    match findTerm terms (c :: cs) with
    | some t =>
      if t.length = 0 then
        rep [] ++ c :: maskFuel terms rep fuel cs
      else
        rep ((c :: cs).take t.length) ++
          maskFuel terms rep fuel ((c :: cs).drop t.length)
    | none => c :: maskFuel terms rep fuel cs

/-- The full substitution `self.pattern.sub(replace_match, text)`:
run the scan with enough fuel for the whole text. -/
def maskChars (terms : List String) (rep : List Char → List Char)
    (s : List Char) : List Char :=
  maskFuel terms rep s.length s

/-- Model of `MaskingService.mask_text`: `if not self.pattern or not text:
return text` (the pattern is `None` exactly when the sorted term list —
equivalently `sensitive_terms` — is empty), else substitute every match. -/
def MaskingService.mask_text (m : MaskingService) (text : String) : String :=
  if m.sensitive_terms.isEmpty || text.isEmpty then text
  else ⟨maskChars m.sortedTerms (replace_match m.token_map) text.data⟩

/-- Python values traversed by `mask_structure`: mappings (string-keyed,
insertion-ordered), sequences, strings, and scalar leaves.  `obj` stands
for any other Python object (passed through by the final `else` branch
and not JSON-serializable). -/
inductive Value where
  | str : String → Value
  | int : Int → Value
  | bool : Bool → Value
  | null : Value
  | obj : Nat → Value
  | list : List Value → Value
  | dict : List (String × Value) → Value

/-- Model of `MaskingService.mask_structure`: recursively rebuild the
value; a mapping entry whose key is in `sensitive_keys` gets the literal
`"[MASKED_VALUE]"` without recursion, other entries recurse; sequences
map; strings go through `mask_text`; every other leaf passes through. -/
def MaskingService.mask_structure (m : MaskingService) : Value → Value
  | .dict kvs =>
    .dict (kvs.attach.map fun kv =>
      if m.sensitive_keys.contains kv.1.1 then (kv.1.1, .str "[MASKED_VALUE]")
      else (kv.1.1, m.mask_structure kv.1.2))
  | .list xs => .list (xs.attach.map fun x => m.mask_structure x.1)
  | .str s => .str (m.mask_text s)
  | .int n => .int n
  | .bool b => .bool b
  | .null => .null
  | .obj i => .obj i
decreasing_by
  · obtain ⟨⟨k, v⟩, hkv⟩ := kv
    have := List.sizeOf_lt_of_mem hkv
    simp at this ⊢
    omega
  · have := List.sizeOf_lt_of_mem x.2
    simp
    omega

/-- Clean unfolding of the mapping case of `mask_structure`. -/
theorem mask_structure_dict (m : MaskingService) (kvs : List (String × Value)) :
    m.mask_structure (.dict kvs) =
      .dict (kvs.map fun kv =>
        if m.sensitive_keys.contains kv.1 then (kv.1, .str "[MASKED_VALUE]")
        else (kv.1, m.mask_structure kv.2)) := by
  rw [MaskingService.mask_structure]
  simp [List.map_attach]

/-- Clean unfolding of the sequence case of `mask_structure`. -/
theorem mask_structure_list (m : MaskingService) (xs : List Value) :
    m.mask_structure (.list xs) = .list (xs.map m.mask_structure) := by
  rw [MaskingService.mask_structure]
  simp [List.map_attach]

/-! ## The monitoring module (`src/scripts/monitoring.py`)

Each handler is modelled as a function from its payload to
`Except String (List String)`: `.ok lines` means the handler returned
normally after emitting `lines` on the logger, `.error e` means an
uncaught exception `e` propagated to the caller. -/

/-- Rendering of a string as a JSON string literal (quotes around the
escaped text), as `json.dumps` does. -/
def jsonQuote (s : String) : String :=
  "\"" ++ ⟨s.data.foldr
    (fun c acc => if c = '"' || c = '\\' then '\\' :: c :: acc else c :: acc)
    []⟩ ++ "\""

mutual
/-- Model of the external `json.dumps` on a `Value`: succeeds on mappings,
sequences, strings and JSON scalars, and raises `TypeError` (here
`.error`) on any other object, exactly as `json.dumps` does on a value it
cannot serialize. -/
def jsonDumps : Value → Except String String
  | .str s => .ok (jsonQuote s)
  | .int n => .ok (toString n)
  | .bool b => .ok (if b then "true" else "false")
  | .null => .ok "null"
  | .obj _ => .error "TypeError: Object is not JSON serializable"
  | .list xs => do
    let rs ← jsonDumpsList xs
    pure ("[" ++ String.intercalate ", " rs ++ "]")
  | .dict kvs => do
    let rs ← jsonDumpsEntries kvs
    pure ("\x7b" ++ String.intercalate ", " rs ++ "\x7d")

/-- `json.dumps` over the elements of a sequence. -/
def jsonDumpsList : List Value → Except String (List String)
  | [] => pure []
  | x :: xs => do
    let r ← jsonDumps x
    let rs ← jsonDumpsList xs
    pure (r :: rs)

/-- `json.dumps` over the entries of a mapping. -/
def jsonDumpsEntries : List (String × Value) → Except String (List String)
  | [] => pure []
  | (k, v) :: kvs => do
    let r ← jsonDumps v
    let rs ← jsonDumpsEntries kvs
    pure ((jsonQuote k ++ ": " ++ r) :: rs)
end

/-- Model of `SecureMonitoringCallback.on_llm_start`: mask every prompt,
serialize the masked list, truncate to 2000 characters and emit one log
line.  There is no try/except in this handler: a serialization failure
would propagate (but see `jsonDumpsList_str`: lists of strings always
serialize). -/
def on_llm_start (m : MaskingService) (prompts : List String) :
    Except String (List String) := do
  let masked_prompts := prompts.map m.mask_text
  let s ← jsonDumps (.list (masked_prompts.map .str))
  pure ["LLM START - Prompts: " ++ s.take 2000 ++ "..."]

/-- A call-end payload as `on_llm_end` probes it:
`response.generations[0][0].text`.  `generations = none` models a
response object without a `generations` attribute; an inner `none`
models a generation without a `text` attribute. -/
structure LLMResponse where
  generations : Option (List (List (Option String)))

/-- The extraction `response.generations[0][0].text`: `none` is any of
`AttributeError` (missing attribute) or `IndexError` (empty list). -/
def extractGenText (r : LLMResponse) : Option String := do
  let gs ← r.generations
  let g0 ← gs.head?
  let g00 ← g0.head?
  g00

/-- Model of `SecureMonitoringCallback.on_llm_end`: the whole body is
wrapped in `try: ... except:`, so any extraction failure degrades to the
fixed fallback line; the handler always returns normally (`.ok`). -/
def on_llm_end (m : MaskingService) (r : LLMResponse) :
    Except String (List String) :=
  match extractGenText r with
  | some text => .ok ["LLM END - Response: " ++ (m.mask_text text).take 2000 ++ "..."]
  | none => .ok ["LLM END - (Could not parse response text)"]

/-- Model of `SecureMonitoringCallback.on_chain_start`: copy the inputs,
mask the structure, serialize, truncate, emit one line.  There is no
try/except in this handler: a `json.dumps` failure propagates. -/
def on_chain_start (m : MaskingService) (inputs : List (String × Value)) :
    Except String (List String) := do
  let masked_inputs := m.mask_structure (.dict inputs)
  let s ← jsonDumps masked_inputs
  pure ["CHAIN START - Inputs: " ++ s.take 2000 ++ "..."]

/-! ## Configuration loading (`MaskingService.__init__`, lines 6-12) -/

/-- What `yaml.safe_load` produced for an existing, well-formed source:
either a mapping document (each of the three entries present or absent,
assumed well-typed when present), or a non-mapping document — e.g. an
empty file, a bare scalar or a list, for which `safe_load` returns a
non-dict value. -/
inductive ParsedDoc where
  | mapping (sensitive_keys : Option (List String))
      (sensitive_terms : Option (List String))
      (token_map : Option (List (String × String)))
  | nonMapping

/-- The configuration source as the constructor sees it. -/
inductive ConfigSource where
  | missing
  | invalid
  | parsed (doc : ParsedDoc)

/-- How construction can fail: `FileNotFoundError` from `open`
(the spec's `ConfigNotFound`), `yaml.YAMLError` from `safe_load`
(the spec's `ConfigParseError`), or `AttributeError` from calling
`.get` on a non-dict document. -/
inductive LoadError where
  | configNotFound
  | configParseError
  | attributeError
deriving DecidableEq

/-- Model of `MaskingService.__init__` configuration loading:
`open` raises on a missing source, `yaml.safe_load` raises on a
malformed source, `.get(entry, default)` defaults each absent entry
(`[]`, `[]`, `{}`) on a mapping document, and raises `AttributeError`
on a non-mapping document. -/
def loadMaskingService : ConfigSource → Except LoadError MaskingService
  | .missing => .error .configNotFound
  | .invalid => .error .configParseError
  | .parsed .nonMapping => .error .attributeError
  | .parsed (.mapping ks ts tm) => .ok ⟨ks.getD [], ts.getD [], tm.getD []⟩

/-! ## Helper lemmas -/

theorem lowerCs_nil : lowerCs [] = [] := rfl

theorem lowerCs_cons (c : Char) (cs : List Char) :
    lowerCs (c :: cs) = c.toLower :: lowerCs cs := rfl

theorem lowerCs_append (a b : List Char) :
    lowerCs (a ++ b) = lowerCs a ++ lowerCs b := List.map_append _ _ _

theorem lowerCs_take (n : Nat) (s : List Char) :
    lowerCs (s.take n) = (lowerCs s).take n := by
  simp [lowerCs, List.map_take]

theorem lowerCs_drop (n : Nat) (s : List Char) :
    lowerCs (s.drop n) = (lowerCs s).drop n := by
  simp [lowerCs, List.map_drop]

theorem lowerCs_length (s : List Char) : (lowerCs s).length = s.length :=
  List.length_map _ _

theorem mem_insertByLen (x y : String) (l : List String) :
    y ∈ insertByLen x l ↔ y = x ∨ y ∈ l := by
  induction l with
  | nil => simp [insertByLen]
  | cons z zs ih =>
    simp only [insertByLen]
    split
    · simp only [List.mem_cons, ih]
      tauto
    · simp only [List.mem_cons]

theorem pairwise_insertByLen (x : String) (l : List String)
    (h : l.Pairwise (fun a b => b.length ≤ a.length)) :
    (insertByLen x l).Pairwise (fun a b => b.length ≤ a.length) := by
  induction l with
  | nil => simp [insertByLen]
  | cons y ys ih =>
    rcases List.pairwise_cons.mp h with ⟨hy, hys⟩
    simp only [insertByLen]
    split
    · rename_i hle
      refine List.pairwise_cons.mpr ⟨?_, ih hys⟩
      intro z hz
      rcases (mem_insertByLen x z ys).mp hz with rfl | hz'
      · exact hle
      · exact hy z hz'
    · rename_i hlt
      refine List.pairwise_cons.mpr ⟨?_, h⟩
      intro z hz
      rcases List.mem_cons.mp hz with rfl | hz'
      · omega
      · have := hy z hz'
        omega

theorem sortByLenDesc_pairwise (l : List String) :
    (sortByLenDesc l).Pairwise (fun a b => b.length ≤ a.length) := by
  induction l with
  | nil => simp [sortByLenDesc]
  | cons x xs ih => exact pairwise_insertByLen x _ ih

theorem mem_sortByLenDesc (y : String) (l : List String) :
    y ∈ sortByLenDesc l ↔ y ∈ l := by
  induction l with
  | nil => simp [sortByLenDesc]
  | cons x xs ih =>
    simp only [sortByLenDesc, mem_insertByLen, List.mem_cons, ih]

/-- Under the descending-length ordering that `sortedTerms` guarantees,
the alternative `find?` selects is at least as long as every alternative
that matches. -/
theorem find?_first_longest (l : List String) (q : String → Bool) (u : String)
    (hp : l.Pairwise (fun a b => b.length ≤ a.length)) (hu : l.find? q = some u) :
    ∀ t ∈ l, q t = true → t.length ≤ u.length := by
  rcases List.find?_eq_some.mp hu with ⟨_, as, bs, rfl, has⟩
  intro t ht hqt
  rcases List.mem_append.mp ht with hta | htb
  · have := has t hta
    simp [hqt] at this
  · rcases List.mem_cons.mp htb with rfl | htb'
    · exact Nat.le_refl _
    · have h2 := (List.pairwise_append.mp hp).2.1
      exact (List.pairwise_cons.mp h2).1 t htb'

theorem findTerm_congr (terms : List String) {s₁ s₂ : List Char}
    (h : lowerCs s₁ = lowerCs s₂) : findTerm terms s₁ = findTerm terms s₂ := by
  unfold findTerm
  rw [h]

theorem findToken_congr (tm : List (String × String)) {a b : List Char}
    (h : lowerCs a = lowerCs b) : findToken tm a = findToken tm b := by
  unfold findToken
  rw [h]

theorem replace_match_congr (tm : List (String × String)) {a b : List Char}
    (h : lowerCs a = lowerCs b) : replace_match tm a = replace_match tm b := by
  unfold replace_match
  rw [findToken_congr tm h]

theorem isSub_nil (t : List Char) : isSub t [] = isPfx t [] := rfl

theorem isSub_cons_false {t : List Char} {c : Char} {cs : List Char}
    (h : isSub t (c :: cs) = false) :
    isPfx t (c :: cs) = false ∧ isSub t cs = false := by
  simpa [isSub, Bool.or_eq_false_iff] using h

/-- The scan is case-insensitive: texts equal up to letter case are
matched at the same positions by the same alternatives and replaced by
the same tokens, so the outputs are equal up to letter case (replaced
spans are literally equal; untouched characters keep their own case). -/
theorem maskFuel_lower (terms : List String) (tm : List (String × String)) :
    ∀ (fuel : Nat) (s₁ s₂ : List Char), lowerCs s₁ = lowerCs s₂ →
      lowerCs (maskFuel terms (replace_match tm) fuel s₁) =
        lowerCs (maskFuel terms (replace_match tm) fuel s₂) := by
  intro fuel
  induction fuel with
  | zero =>
    intro s₁ s₂ h
    match s₁, s₂ with
    | [], [] => rfl
    | [], _ :: _ => simp [lowerCs] at h
    | _ :: _, [] => simp [lowerCs] at h
    | a :: as, b :: bs => simpa [maskFuel] using h
  | succ fuel ih =>
    intro s₁ s₂ h
    match s₁, s₂ with
    | [], [] => rfl
    | [], _ :: _ => simp [lowerCs] at h
    | _ :: _, [] => simp [lowerCs] at h
    | a :: as, b :: bs =>
      have hf := findTerm_congr terms h
      have h' := h
      simp only [lowerCs_cons, List.cons.injEq] at h'
      obtain ⟨h1, h2⟩ := h'
      cases hcase : findTerm terms (a :: as) with
      | none =>
        simp only [maskFuel, hcase, hf ▸ hcase, lowerCs_cons, List.cons.injEq]
        exact ⟨h1, ih as bs h2⟩
      | some t =>
        simp only [maskFuel, hcase, hf ▸ hcase]
        by_cases ht : t.length = 0
        · rw [if_pos ht, if_pos ht]
          simp only [lowerCs_append, lowerCs_cons,
            List.append_cancel_left_eq, List.cons.injEq]
          exact ⟨h1, ih as bs h2⟩
        · have hsp : lowerCs ((a :: as).take t.length) =
              lowerCs ((b :: bs).take t.length) := by
            rw [lowerCs_take, lowerCs_take, h]
          have hdr : lowerCs ((a :: as).drop t.length) =
              lowerCs ((b :: bs).drop t.length) := by
            rw [lowerCs_drop, lowerCs_drop, h]
          simp only [if_neg ht, lowerCs_append,
            replace_match_congr tm hsp, List.append_cancel_left_eq]
          exact ih _ _ hdr

/-- If no configured term occurs (case-insensitively) anywhere in the
text, the scan finds no match at any position and copies the text
through unchanged. -/
theorem maskFuel_no_match (terms : List String) (rep : List Char → List Char) :
    ∀ (fuel : Nat) (s : List Char),
      (∀ t ∈ terms, isSub (lowerCs t.data) (lowerCs s) = false) →
      maskFuel terms rep fuel s = s := by
  have hnil : ∀ s : List Char,
      (∀ t ∈ terms, isSub (lowerCs t.data) (lowerCs s) = false) → s = [] →
      findTerm terms s = none := by
    intro s h hs
    subst hs
    refine List.find?_eq_none.mpr fun t ht => ?_
    have := h t ht
    rw [lowerCs_nil, isSub_nil] at this
    simp only [lowerCs_nil]
    simp [this]
  intro fuel
  induction fuel with
  | zero =>
    intro s h
    match s with
    | [] => simp [maskFuel, hnil [] h rfl]
    | c :: cs => rfl
  | succ fuel ih =>
    intro s h
    match s with
    | [] => simp [maskFuel, hnil [] h rfl]
    | c :: cs =>
      have hnone : findTerm terms (c :: cs) = none := by
        refine List.find?_eq_none.mpr fun t ht => ?_
        have := h t ht
        rw [lowerCs_cons] at this
        have := (isSub_cons_false this).1
        rw [← lowerCs_cons] at this
        simp [this]
      have htail : ∀ t ∈ terms, isSub (lowerCs t.data) (lowerCs cs) = false := by
        intro t ht
        have := h t ht
        rw [lowerCs_cons] at this
        exact (isSub_cons_false this).2
      simp only [maskFuel, hnone]
      rw [ih cs htail]

theorem string_isEmpty_iff_data (s : String) : s.isEmpty = true ↔ s.data = [] := by
  rw [String.isEmpty_iff]
  constructor
  · rintro rfl
    rfl
  · intro h
    exact String.ext h

/-- If no configured term occurs case-insensitively in `s`, masking
leaves `s` unchanged. -/
theorem mask_text_of_no_sub (m : MaskingService) (s : String)
    (h : ∀ t ∈ m.sensitive_terms, isSub (lowerCs t.data) (lowerCs s.data) = false) :
    m.mask_text s = s := by
  rw [MaskingService.mask_text]
  split
  · rfl
  · have h' : ∀ t ∈ m.sortedTerms,
        isSub (lowerCs t.data) (lowerCs s.data) = false :=
      fun t ht => h t ((mem_sortByLenDesc t m.sensitive_terms).mp ht)
    simp only [maskChars]
    rw [maskFuel_no_match m.sortedTerms (replace_match m.token_map)
      s.data.length s.data h']

/-- `mask_text` treats inputs that agree up to letter case identically:
the outputs agree up to letter case as well (the replaced spans are
literally equal, untouched characters keep their own case). -/
theorem mask_text_lower_congr (m : MaskingService) (s₁ s₂ : String)
    (h : lowerCs s₁.data = lowerCs s₂.data) :
    lowerCs (m.mask_text s₁).data = lowerCs (m.mask_text s₂).data := by
  have hlen : s₁.data.length = s₂.data.length := by
    have := congrArg List.length h
    simpa [lowerCs_length] using this
  by_cases hterms : m.sensitive_terms.isEmpty
  · simp [MaskingService.mask_text, hterms, h]
  · by_cases hs1 : s₁.isEmpty
    · have hd1 : s₁.data = [] := (string_isEmpty_iff_data s₁).mp hs1
      have hd2 : s₂.data = [] := by
        have : s₂.data.length = 0 := by rw [← hlen, hd1]; rfl
        exact List.length_eq_zero.mp this
      have hs2 : s₂.isEmpty = true := (string_isEmpty_iff_data s₂).mpr hd2
      simp [MaskingService.mask_text, hs1, hs2, h]
    · have hs2 : s₂.isEmpty = false := by
        cases h2 : s₂.isEmpty with
        | false => rfl
        | true =>
          exfalso
          have hd2 : s₂.data = [] := (string_isEmpty_iff_data s₂).mp h2
          have : s₁.data.length = 0 := by rw [hlen, hd2]; rfl
          have hd1 : s₁.data = [] := List.length_eq_zero.mp this
          exact hs1 ((string_isEmpty_iff_data s₁).mpr hd1)
      have hs1' : s₁.isEmpty = false := by simpa using hs1
      have hterms' : m.sensitive_terms.isEmpty = false := by simpa using hterms
      rw [MaskingService.mask_text, MaskingService.mask_text,
        if_neg (by simp [hterms', hs1']), if_neg (by simp [hterms', hs2])]
      show lowerCs (maskFuel _ _ s₁.data.length s₁.data) =
        lowerCs (maskFuel _ _ s₂.data.length s₂.data)
      rw [hlen]
      exact maskFuel_lower m.sortedTerms m.token_map s₂.data.length s₁.data s₂.data h

theorem mask_text_id_of_nil (m : MaskingService) (h : m.sensitive_terms = [])
    (s : String) : m.mask_text s = s := by
  simp [MaskingService.mask_text, h]

/-- With no sensitive keys and no sensitive terms, `mask_structure` is
the identity on every value. -/
theorem mask_structure_id (m : MaskingService) (hk : m.sensitive_keys = [])
    (ht : m.sensitive_terms = []) : (v : Value) → m.mask_structure v = v
  | .str s => by
    simp [MaskingService.mask_structure, mask_text_id_of_nil m ht]
  | .int n => by simp [MaskingService.mask_structure]
  | .bool b => by simp [MaskingService.mask_structure]
  | .null => by simp [MaskingService.mask_structure]
  | .obj i => by simp [MaskingService.mask_structure]
  | .list xs => by
    rw [mask_structure_list]
    have hall : ∀ x ∈ xs, m.mask_structure x = id x := fun x hx =>
      mask_structure_id m hk ht x
    rw [List.map_congr_left hall, List.map_id]
  | .dict kvs => by
    rw [mask_structure_dict]
    have hall : ∀ kv ∈ kvs,
        (fun kv : String × Value =>
          if m.sensitive_keys.contains kv.1 then (kv.1, Value.str "[MASKED_VALUE]")
          else (kv.1, m.mask_structure kv.2)) kv = id kv := by
      intro kv hkv
      have hrec := mask_structure_id m hk ht kv.2
      simp [hk, hrec]
    rw [List.map_congr_left hall, List.map_id]
termination_by v => sizeOf v
decreasing_by
  · have := List.sizeOf_lt_of_mem hx
    simp
    omega
  · obtain ⟨k, v⟩ := kv
    have := List.sizeOf_lt_of_mem hkv
    simp at this ⊢
    omega

theorem exbind_ok {α β ε : Type} (a : α) (f : α → Except ε β) :
    ((Except.ok a : Except ε α) >>= f) = f a := rfl

theorem exbind_error {α β ε : Type} (e : ε) (f : α → Except ε β) :
    ((Except.error e : Except ε α) >>= f) = .error e := rfl

/-- A list of strings always serializes: `json.dumps` cannot fail on the
masked prompt list of the call-start handler. -/
theorem jsonDumpsList_str (l : List String) :
    jsonDumpsList (l.map Value.str) = .ok (l.map jsonQuote) := by
  induction l with
  | nil =>
    simp only [List.map_nil, jsonDumpsList]
    rfl
  | cons a as ih => simp [jsonDumpsList, jsonDumps, ih, exbind_ok]

/-! ## Concrete configurations used by the claims -/

/-- Empty configuration (all three entries empty). -/
def mEmpty : MaskingService := ⟨[], [], []⟩

/-- The spec's longest-match-first example configuration. -/
def mC1 : MaskingService :=
  ⟨[], ["acid", "hydrochloric acid"], [("hydrochloric acid", "HAZ1")]⟩

/-- Single term "acid", no token map. -/
def mAcid : MaskingService := ⟨[], ["acid"], []⟩

/-- Sensitive key "password", nothing else. -/
def mPw : MaskingService := ⟨["password"], [], []⟩

/-- Sensitive key "password" together with term "acid". -/
def mPw2 : MaskingService := ⟨["password"], ["acid"], []⟩

/-- A token map with several entries qualifying for the same match. -/
def mTok : MaskingService :=
  ⟨[], ["hydrochloric acid"], [("x", "A"), ("acid", "B"), ("hydrochloric acid", "C")]⟩

/-- Terms that can match across the boundary of two adjacent replacement
tokens in already-masked text. -/
def mBr : MaskingService := ⟨[], ["ab", "]["], []⟩

/-! ## Claims -/

/-- **C1**: for every pair of configured sensitive terms where one is a
substring of the other, `mask_text` matches the longer term first at any
text position — formalised: at any scan position (suffix `s`), the
alternative the compiled pattern selects is at least as long as every
configured term matching there; and concretely, with terms
`{"acid", "hydrochloric acid"}` and `token_map {"hydrochloric acid": "HAZ1"}`,
`mask_text "hydrochloric acid spill" = "[HAZ1] spill"`, not
`"[MASKED_TERM] acid spill"`. -/
theorem claim1_longest_match_first :
    (∀ (m : MaskingService) (s : List Char) (t : String),
        t ∈ m.sensitive_terms → isPfx (lowerCs t.data) (lowerCs s) = true →
        ∃ u, findTerm m.sortedTerms s = some u ∧
          isPfx (lowerCs u.data) (lowerCs s) = true ∧ t.length ≤ u.length) ∧
    mC1.mask_text "hydrochloric acid spill" = "[HAZ1] spill" ∧
    mC1.mask_text "hydrochloric acid spill" ≠ "[MASKED_TERM] acid spill" := by
  refine ⟨?_, by decide, by decide⟩
  intro m s t ht hp
  have hmem : t ∈ m.sortedTerms := (mem_sortByLenDesc t m.sensitive_terms).mpr ht
  have hsome : ((m.sortedTerms).find? fun t =>
      isPfx (lowerCs t.data) (lowerCs s)).isSome :=
    List.find?_isSome.mpr ⟨t, hmem, hp⟩
  obtain ⟨u, hu⟩ := Option.isSome_iff_exists.mp hsome
  refine ⟨u, hu, ?_, ?_⟩
  · have hq := List.find?_some hu
    simpa using hq
  · exact find?_first_longest m.sortedTerms _ u
      (sortByLenDesc_pairwise m.sensitive_terms) hu t hmem hp

/-- Witness for **C1**: the hypotheses hold at the concrete position
"acid spill" with term "acid", and the theorem produces a selected
alternative there. -/
theorem claim1_witness :
    ("acid" : String) ∈ mC1.sensitive_terms ∧
    isPfx (lowerCs ("acid" : String).data) (lowerCs ("acid spill" : String).data) = true ∧
    (findTerm mC1.sortedTerms ("acid spill" : String).data).isSome = true := by
  refine ⟨by decide, by decide, ?_⟩
  obtain ⟨u, hu, -, -⟩ := claim1_longest_match_first.1 mC1
    ("acid spill" : String).data "acid" (by decide) (by decide)
  rw [hu]
  rfl

/-- **C2** counterexample: the nested-step-start handler has no
try/except; feeding it an input whose value is not JSON-serializable
makes `json.dumps` raise, and the error propagates to the caller. -/
theorem claim2_counterexample :
    on_chain_start mEmpty [("inputs", Value.obj 0)] =
      .error "TypeError: Object is not JSON serializable" := by
  have hm : mEmpty.mask_structure (.dict [("inputs", Value.obj 0)]) =
      .dict [("inputs", Value.obj 0)] := by
    rw [mask_structure_dict]
    have hc : mEmpty.sensitive_keys.contains "inputs" = false := by decide
    simp only [hc, Bool.false_eq_true, if_false, List.map_cons, List.map_nil]
    simp [MaskingService.mask_structure]
  rw [on_chain_start, hm]
  have hj : jsonDumps (.dict [("inputs", Value.obj 0)]) =
      .error "TypeError: Object is not JSON serializable" := by
    simp [jsonDumps, jsonDumpsEntries, exbind_error, exbind_ok]
  rw [hj]
  rfl

/-- **C2** amended: only the call-end handler is guarded by try/except
and never raises; the call-start handler is unguarded but cannot fail
for its payload shape (a list of strings always serializes); the
nested-step-start handler is unguarded and returns normally only when
the masked structure serializes. -/
theorem claim2_amended_handler_guards :
    (∀ (m : MaskingService) (prompts : List String),
        ∃ line, on_llm_start m prompts = .ok [line]) ∧
    (∀ (m : MaskingService) (r : LLMResponse),
        ∃ line, on_llm_end m r = .ok [line]) ∧
    (∀ (m : MaskingService) (inputs : List (String × Value)) (s : String),
        jsonDumps (m.mask_structure (.dict inputs)) = .ok s →
        on_chain_start m inputs =
          .ok ["CHAIN START - Inputs: " ++ s.take 2000 ++ "..."]) := by
  refine ⟨?_, ?_, ?_⟩
  · intro m prompts
    refine ⟨"LLM START - Prompts: " ++
      ("[" ++ String.intercalate ", "
        ((prompts.map m.mask_text).map jsonQuote) ++ "]").take 2000 ++ "...", ?_⟩
    rw [on_llm_start]
    have hj : jsonDumps (.list ((prompts.map m.mask_text).map Value.str)) =
        .ok ("[" ++ String.intercalate ", "
          ((prompts.map m.mask_text).map jsonQuote) ++ "]") := by
      simp only [jsonDumps]
      rw [jsonDumpsList_str (prompts.map m.mask_text)]
      rfl
    rw [hj]
    rfl
  · intro m r
    cases h : extractGenText r with
    | some text => exact ⟨_, by rw [on_llm_end, h]⟩
    | none => exact ⟨_, by rw [on_llm_end, h]⟩
  · intro m inputs s hs
    rw [on_chain_start, hs]
    rfl

/-- Witness for **C2**: the serialization hypothesis of the
nested-step-start conjunct holds for a small all-string input, and the
handler then emits its single log line. -/
theorem claim2_witness :
    on_chain_start mEmpty [("q", Value.str "hello")] =
      .ok ["CHAIN START - Inputs: " ++
        ("\x7b\"q\": \"hello\"\x7d" : String).take 2000 ++ "..."] := by
  have hs : jsonDumps (mEmpty.mask_structure (.dict [("q", Value.str "hello")])) =
      .ok "\x7b\"q\": \"hello\"\x7d" := by
    have hm : mEmpty.mask_structure (.dict [("q", Value.str "hello")]) =
        .dict [("q", Value.str "hello")] := by
      rw [mask_structure_dict]
      have hc : mEmpty.sensitive_keys.contains "q" = false := by decide
      have hmt : mEmpty.mask_text "hello" = "hello" := by decide
      simp only [hc, Bool.false_eq_true, if_false, List.map_cons, List.map_nil]
      simp [MaskingService.mask_structure, hmt]
    rw [hm]
    have he : jsonDumpsEntries [("q", Value.str "hello")] =
        .ok ["\"q\": \"hello\""] := by
      simp only [jsonDumpsEntries, jsonDumps]
      rfl
    simp only [jsonDumps]
    rw [he]
    rfl
  exact claim2_amended_handler_guards.2.2 mEmpty [("q", Value.str "hello")]
    "\x7b\"q\": \"hello\"\x7d" hs

/-- **C3** counterexample: key detection in `mask_structure` is exact
string equality, not case-insensitive — the configured sensitive key
"password" masks the entry for key "password" but not for "PASSWORD";
and for text, case-variant inputs do not in general give identical
outputs, because unmatched characters keep their original case. -/
theorem claim3_counterexample :
    mPw.mask_structure (.dict [("password", .str "hunter2")]) =
      .dict [("password", .str "[MASKED_VALUE]")] ∧
    mPw.mask_structure (.dict [("PASSWORD", .str "hunter2")]) =
      .dict [("PASSWORD", .str "hunter2")] ∧
    mAcid.mask_text "ACID spill" ≠ mAcid.mask_text "acid SPILL" := by
  refine ⟨?_, ?_, by decide⟩
  · rw [mask_structure_dict]
    have hc : "password" ∈ mPw.sensitive_keys := by decide
    simp [hc]
  · rw [mask_structure_dict]
    have hc : mPw.sensitive_keys.contains "PASSWORD" = false := by decide
    have hmt : mPw.mask_text "hunter2" = "hunter2" := by decide
    simp only [hc, Bool.false_eq_true, if_false, List.map_cons, List.map_nil]
    simp [MaskingService.mask_structure, hmt]

/-- **C3** amended: `mask_text` term matching is case-insensitive —
inputs equal up to letter case give outputs equal up to letter case,
and the spec's example inputs "ACID"/"Acid"/"acid" (each fully matched)
give the identical output "[MASKED_TERM]"; but `mask_structure` detects
a sensitive key only when it appears with exactly the configured
casing (exact membership test). -/
theorem claim3_amended_case_sensitivity :
    (∀ (m : MaskingService) (s₁ s₂ : String),
        lowerCs s₁.data = lowerCs s₂.data →
        lowerCs (m.mask_text s₁).data = lowerCs (m.mask_text s₂).data) ∧
    (mAcid.mask_text "ACID" = "[MASKED_TERM]" ∧
      mAcid.mask_text "Acid" = "[MASKED_TERM]" ∧
      mAcid.mask_text "acid" = "[MASKED_TERM]") ∧
    (∀ (m : MaskingService) (k : String) (v : Value),
        m.mask_structure (.dict [(k, v)]) =
          .dict [(k, if m.sensitive_keys.contains k then Value.str "[MASKED_VALUE]"
            else m.mask_structure v)]) := by
  refine ⟨fun m s₁ s₂ h => mask_text_lower_congr m s₁ s₂ h,
    ⟨by decide, by decide, by decide⟩, ?_⟩
  intro m k v
  rw [mask_structure_dict]
  by_cases hc : k ∈ m.sensitive_keys <;> simp [hc]

/-- Witness for **C3**: the case-agreement hypothesis holds for the
concrete pair "ACID"/"acid", and the theorem yields case-agreement of
the outputs. -/
theorem claim3_witness :
    lowerCs (mAcid.mask_text "ACID").data = lowerCs (mAcid.mask_text "acid").data :=
  claim3_amended_case_sensitivity.1 mAcid "ACID" "acid" (by decide)

/-- **C4**: in `mask_structure`, an entry whose key is in
`sensitive_keys` has its value replaced wholesale by the literal
`"[MASKED_VALUE]"` with no recursion into it; other entries recurse into
the value; keys and their order are preserved.  Concretely, with
`sensitive_keys = {"password"}` and term "acid",
`{"password": {"raw": "acid"}}` masks to `{"password": "[MASKED_VALUE]"}`
— the nested "acid" is never independently detected. -/
theorem claim4_key_precedence :
    (∀ (m : MaskingService) (kvs : List (String × Value)),
        m.mask_structure (.dict kvs) =
          .dict (kvs.map fun kv =>
            (kv.1, if m.sensitive_keys.contains kv.1 then Value.str "[MASKED_VALUE]"
              else m.mask_structure kv.2)) ∧
        (kvs.map fun kv =>
            (kv.1, if m.sensitive_keys.contains kv.1 then Value.str "[MASKED_VALUE]"
              else m.mask_structure kv.2)).map Prod.fst = kvs.map Prod.fst) ∧
    mPw2.mask_structure (.dict [("password", .dict [("raw", .str "acid")])]) =
      .dict [("password", .str "[MASKED_VALUE]")] := by
  constructor
  · intro m kvs
    constructor
    · rw [mask_structure_dict]
      congr 1
      apply List.map_congr_left
      intro kv _
      by_cases hc : kv.1 ∈ m.sensitive_keys <;> simp [hc]
    · simp [List.map_map, Function.comp]
  · rw [mask_structure_dict]
    have hc : "password" ∈ mPw2.sensitive_keys := by decide
    simp [hc]

/-- **C5**: a call-end payload whose shape lacks the expected
generated-text field makes the handler emit exactly one fixed fallback
log line (a constant independent of the payload, hence free of any
payload content) and return normally rather than raising. -/
theorem claim5_fallback_safety :
    ∀ (m : MaskingService) (r : LLMResponse), extractGenText r = none →
      on_llm_end m r = .ok ["LLM END - (Could not parse response text)"] := by
  intro m r h
  rw [on_llm_end, h]

/-- Witness for **C5**: a response object without a `generations`
attribute fails extraction, and the handler emits the fallback line. -/
theorem claim5_witness :
    on_llm_end mEmpty ⟨none⟩ = .ok ["LLM END - (Could not parse response text)"] :=
  claim5_fallback_safety mEmpty ⟨none⟩ rfl

/-- **C6**: for every matched span, the replacement is computed by
`replace_match`: the first `token_map` entry (in iteration order) whose
key is a case-insensitive substring of the matched text supplies the
token, rendered in brackets; with no qualifying entry the fallback
`"[MASKED_TERM]"` is used.  Concretely, for the match
"hydrochloric acid" with entries `x ↦ A, acid ↦ B, hydrochloric acid ↦ C`,
the first qualifying entry is `acid ↦ B`, so the output is `"[B]"`. -/
theorem claim6_token_selection :
    (∀ (tm : List (String × String)) (orig : List Char),
        (∃ pre p post, tm = pre ++ p :: post ∧
          (∀ q ∈ pre, isSub (lowerCs q.1.data) (lowerCs orig) = false) ∧
          isSub (lowerCs p.1.data) (lowerCs orig) = true ∧
          replace_match tm orig = ("[" ++ p.2 ++ "]").data) ∨
        ((∀ q ∈ tm, isSub (lowerCs q.1.data) (lowerCs orig) = false) ∧
          replace_match tm orig = "[MASKED_TERM]".data)) ∧
    mTok.mask_text "hydrochloric acid" = "[B]" := by
  refine ⟨?_, by decide⟩
  intro tm orig
  cases h : findToken tm orig with
  | some p =>
    left
    have h' := h
    rw [findToken] at h'
    rcases List.find?_eq_some.mp h' with ⟨hq, pre, post, htm, hpre⟩
    refine ⟨pre, p, post, htm, ?_, hq, ?_⟩
    · intro q hqmem
      have := hpre q hqmem
      simpa using this
    · rw [replace_match, h]
  | none =>
    right
    have h' := h
    rw [findToken] at h'
    refine ⟨fun q hq => ?_, ?_⟩
    · have := List.find?_eq_none.mp h' q hq
      simpa using this
    · rw [replace_match, h]

/-- **C7**: with all three configuration entries empty, `mask_text` and
`mask_structure` are identity functions. -/
theorem claim7_empty_config_identity :
    ∀ (m : MaskingService), m.sensitive_keys = [] → m.sensitive_terms = [] →
      m.token_map = [] →
      (∀ s : String, m.mask_text s = s) ∧ (∀ v : Value, m.mask_structure v = v) := by
  intro m hk ht _
  exact ⟨mask_text_id_of_nil m ht, mask_structure_id m hk ht⟩

/-- Witness for **C7**: the empty configuration satisfies the three
hypotheses, and masking a concrete string and a concrete nested
structure returns them unchanged. -/
theorem claim7_witness :
    mEmpty.mask_text "acid spill" = "acid spill" ∧
    mEmpty.mask_structure (.dict [("password", .list [.str "acid", .int 3])]) =
      .dict [("password", .list [.str "acid", .int 3])] := by
  have h := claim7_empty_config_identity mEmpty rfl rfl rfl
  exact ⟨h.1 _, h.2 _⟩

/-- **C8** counterexample: with terms `{"ab", "]["}` and an empty token
map, no rendered token (here only `"[MASKED_TERM]"`) contains a
configured term as a case-insensitive substring, yet masking is not
idempotent on "abab": the two adjacent tokens produced by the first
pass form the substring "][" at their boundary, which the second pass
masks again. -/
theorem claim8_counterexample :
    mBr.token_map = [] ∧
    isSub (lowerCs ("ab" : String).data) (lowerCs ("[MASKED_TERM]" : String).data) = false ∧
    isSub (lowerCs ("][" : String).data) (lowerCs ("[MASKED_TERM]" : String).data) = false ∧
    mBr.mask_text (mBr.mask_text "abab") ≠ mBr.mask_text "abab" :=
  ⟨rfl, by decide, by decide, by decide⟩

/-- **C8** amended: `mask_text` is idempotent on an input whose masked
output contains no configured term as a case-insensitive substring
(tokens not containing a term is not enough: a term may match across
the boundary between a token and adjacent text). -/
theorem claim8_amended_idempotence :
    ∀ (m : MaskingService) (x : String),
      (∀ t ∈ m.sensitive_terms,
        isSub (lowerCs t.data) (lowerCs (m.mask_text x).data) = false) →
      m.mask_text (m.mask_text x) = m.mask_text x :=
  fun m x h => mask_text_of_no_sub m (m.mask_text x) h

/-- Witness for **C8**: with term "acid", the masked output of "acid"
is "[MASKED_TERM]", which contains no configured term, so the second
pass leaves it unchanged. -/
theorem claim8_witness :
    mAcid.mask_text (mAcid.mask_text "acid") = mAcid.mask_text "acid" :=
  claim8_amended_idempotence mAcid "acid" (by decide)

/-- **C9**: construction-time configuration loading fails with
`ConfigNotFound` exactly when the source is missing and with
`ConfigParseError` exactly when the source is not valid structured
data; every successful load defaults each absent entry to an empty
collection, and in particular a mapping document with all three entries
absent loads successfully as the all-empty configuration. -/
theorem claim9_config_loading :
    (∀ src : ConfigSource,
        loadMaskingService src = .error .configNotFound ↔ src = .missing) ∧
    (∀ src : ConfigSource,
        loadMaskingService src = .error .configParseError ↔ src = .invalid) ∧
    (∀ (ks ts : Option (List String)) (tm : Option (List (String × String))),
        loadMaskingService (.parsed (.mapping ks ts tm)) =
          .ok ⟨ks.getD [], ts.getD [], tm.getD []⟩) ∧
    loadMaskingService (.parsed (.mapping none none none)) = .ok ⟨[], [], []⟩ := by
  refine ⟨?_, ?_, fun ks ts tm => rfl, rfl⟩
  · intro src
    constructor
    · intro h
      cases src with
      | missing => rfl
      | invalid => simp [loadMaskingService] at h
      | parsed doc => cases doc <;> simp [loadMaskingService] at h
    · rintro rfl
      rfl
  · intro src
    constructor
    · intro h
      cases src with
      | missing => simp [loadMaskingService] at h
      | invalid => rfl
      | parsed doc => cases doc <;> simp [loadMaskingService] at h
    · rintro rfl
      rfl

/-- **C10**: `mask_structure` never applies text masking to mapping
keys: the output mapping has exactly the original keys in the original
order, even when a key contains a configured sensitive term; only the
values are rewritten (the concrete example has key "acid basics"
containing the term "acid": the key passes through verbatim while the
value is masked). -/
theorem claim10_keys_never_masked :
    (∀ (m : MaskingService) (kvs : List (String × Value)),
        ∃ kvs', m.mask_structure (.dict kvs) = .dict kvs' ∧
          kvs'.map Prod.fst = kvs.map Prod.fst) ∧
    mAcid.mask_structure (.dict [("acid basics", .str "acid")]) =
      .dict [("acid basics", .str "[MASKED_TERM]")] := by
  constructor
  · intro m kvs
    refine ⟨_, mask_structure_dict m kvs, ?_⟩
    rw [List.map_map]
    apply List.map_congr_left
    intro kv _
    by_cases hc : kv.1 ∈ m.sensitive_keys <;> simp [hc]
  · rw [mask_structure_dict]
    have hc : ("acid basics" : String) ∉ mAcid.sensitive_keys := by decide
    have hmt : mAcid.mask_text "acid" = "[MASKED_TERM]" := by decide
    simp [hc, MaskingService.mask_structure, hmt]
